import Mathlib

/-!
Verification of the ranking service core (`src/api/src/rank.rs`).

Embedding choices:
* Rust `f64` fields (`average`, `min`, `max`, scores) are modelled as exact
  rationals `ℚ`; every concrete computation appearing in the properties below
  is exactly representable in binary64, so the rational model agrees with the
  code on them.
* Rust `i64` (`total`) is modelled as `Int`.
* `DateTime<Utc>` is modelled as an `Int` timestamp; `Option<DateTime<Utc>>`
  as `Option Int`.
* `HashMap<String, Rank>` is modelled as an association list with
  first-match lookup and replace-or-append insertion, the finite-map
  semantics of the Rust map.
* Fallible repository operations return `Except RepoError`; the mutation of
  the mutex-guarded map is explicit state passing.
* The Firestore transaction body of `RankRepoFirestore::rank` is modelled by
  its effect on the logical document store: read by id, `.expect` panic on
  absence, and a staged field update restricted to the `average` and `total`
  paths.
-/

/-- The `Rank` entity (struct `Rank` in `rank.rs`). -/
structure Rank where
  id : String
  project_id : String
  item_id : String
  total : Int
  average : ℚ
  min : ℚ
  max : ℚ
  created_at : Int
  deleted_at : Option Int
deriving DecidableEq, Repr

namespace Rank

/-- `Rank::get_computed_id`: `format!("{}{}", self.project_id, self.item_id)`. -/
def get_computed_id (r : Rank) : String :=
  r.project_id ++ r.item_id

/-- `Rank::compute_id`: `self.id = self.get_computed_id();`. -/
def compute_id (r : Rank) : Rank :=
  { r with id := r.get_computed_id }

/-- `Rank::update_score`:
`self.average = ((old_average * self.total as f64) + score) / (self.total + 1) as f64;
 self.total += 1;`. -/
def update_score (r : Rank) (score : ℚ) : Rank :=
  { r with
    average := ((r.average * (r.total : ℚ)) + score) / ((r.total + 1 : Int) : ℚ)
    total := r.total + 1 }

end Rank

/-- Errors surfaced by repository operations (the `FirestoreError` values the
code actually constructs: `DataNotFoundError` carries a public generic
details code and a message, both `"5"` in `RankRepoInMemory::rank`). -/
inductive RepoError where
  | dataNotFound (publicCode : String) (message : String)
deriving DecidableEq, Repr

/-- The backing store of `RankRepoInMemory` (`HashMap<String, Rank>`),
modelled as an association list. -/
abbrev RankMap := List (String × Rank)

/-- `HashMap::get` semantics on the association-list model. -/
def mapGet (m : RankMap) (id : String) : Option Rank :=
  match m with
  | [] => none
  | (k, v) :: rest => if k = id then some v else mapGet rest id

/-- `HashMap::insert` semantics on the association-list model: replace the
binding when the key is present, append it otherwise. -/
def mapInsert (m : RankMap) (key : String) (v : Rank) : RankMap :=
  match m with
  | [] => [(key, v)]
  | (k, w) :: rest =>
      if k = key then (key, v) :: rest else (k, w) :: mapInsert rest key v

namespace RankRepoInMemory

/-- `RankRepoInMemory::get`: `Ok(self.map.lock().unwrap().get(&id).cloned())`. -/
def get (m : RankMap) (id : String) : Except RepoError (Option Rank) :=
  Except.ok (mapGet m id)

/-- `RankRepoInMemory::save`: insert under `rank.get_computed_id()`, returning
the resulting map state together with the `Ok(())` result. -/
def save (m : RankMap) (rank : Rank) : Except RepoError Unit × RankMap :=
  (Except.ok (), mapInsert m rank.get_computed_id rank)

/-- `RankRepoInMemory::rank`: look up `id` under the lock; on absence return
`FirestoreError::DataNotFoundError` (code `"5"`, message `"5"`) with the map
untouched; on presence mutate the stored record in place via `update_score`. -/
def rank (m : RankMap) (id : String) (score : ℚ) :
    Except RepoError Unit × RankMap :=
  match mapGet m id with
  | none => (Except.error (RepoError.dataNotFound "5" "5"), m)
  | some r => (Except.ok (), mapInsert m id (r.update_score score))

end RankRepoInMemory

/-- Outcome of the `RankRepoFirestore::rank` transaction body: either the
process panics (the `.expect("Missing document")` on an absent document) or
the transaction commits a new document-store state. -/
inductive FirestoreRankOutcome where
  | panicked (message : String)
  | committed (store : RankMap)
deriving DecidableEq, Repr

/-- The staged Firestore field update
`.fields(paths!(Rank::{average, total}))`: only the `average` and `total`
fields of the stored document are overwritten from `obj`. -/
def applyAverageTotalFields (doc obj : Rank) : Rank :=
  { doc with average := obj.average, total := obj.total }

namespace RankRepoFirestore

/-- `RankRepoFirestore::rank` transaction body: read the document at `id`;
panic with `"Missing document"` when absent; otherwise compute
`update_score` and stage a partial update of only the `average` and `total`
fields of the document at `id`. -/
def rank (store : RankMap) (id : String) (score : ℚ) : FirestoreRankOutcome :=
  match mapGet store id with
  | none => FirestoreRankOutcome.panicked "Missing document"
  | some doc =>
      let updated := doc.update_score score
      FirestoreRankOutcome.committed
        (mapInsert store id (applyAverageTotalFields doc updated))

end RankRepoFirestore

/-- A fresh rank record with `average = 0`, `total = 0` and the given ids and
bounds, as produced by the create-item path. -/
def freshRank (pid iid : String) (lo hi : ℚ) : Rank :=
  { id := pid ++ iid, project_id := pid, item_id := iid, total := 0,
    average := 0, min := lo, max := hi, created_at := 0, deleted_at := none }

/-! ### Lemmas about the association-list map model -/

theorem mapGet_mapInsert_self (m : RankMap) (k : String) (v : Rank) :
    mapGet (mapInsert m k v) k = some v := by
  induction m with
  | nil => simp [mapInsert, mapGet]
  | cons hd tl ih =>
      obtain ⟨k', w⟩ := hd
      by_cases h : k' = k
      · simp [mapInsert, h, mapGet]
      · simp [mapInsert, h, mapGet, ih]

theorem mapGet_mapInsert_ne (m : RankMap) (k : String) (v : Rank) (k' : String)
    (h : k' ≠ k) : mapGet (mapInsert m k v) k' = mapGet m k' := by
  have h2 : ¬ k = k' := fun e => h e.symm
  induction m with
  | nil => simp [mapInsert, mapGet, h2]
  | cons hd tl ih =>
      obtain ⟨k₀, w⟩ := hd
      by_cases h0 : k₀ = k
      · subst h0
        simp [mapInsert, mapGet, h2]
      · simp [mapInsert, h0, mapGet, ih]

theorem mapInsert_idem (m : RankMap) (k : String) (v : Rank) :
    mapInsert (mapInsert m k v) k v = mapInsert m k v := by
  induction m with
  | nil => simp [mapInsert]
  | cons hd tl ih =>
      obtain ⟨k', w⟩ := hd
      by_cases h : k' = k
      · simp [mapInsert, h]
      · simp [mapInsert, h, ih]

/-! ### Claim theorems -/

/-- C1: for every state `(average, total)` with `total ≥ 0` and every score,
a successful score update computed by `Rank::update_score` yields exactly
`average' = (average * total + score) / (total + 1)` and
`total' = total + 1`. -/
theorem C1_update_score_formula (r : Rank) (score : ℚ) (h : 0 ≤ r.total) :
    (r.update_score score).average
        = (r.average * (r.total : ℚ) + score) / ((r.total : ℚ) + 1) ∧
      (r.update_score score).total = r.total + 1 := by
  refine ⟨?_, rfl⟩
  simp only [Rank.update_score]
  push_cast
  ring_nf

/-- Witness for C1 at the concrete state `{average = 0, total = 0}` and
score `8`. -/
theorem C1_update_score_formula_witness :
    ((freshRank "p" "i" 0 5).update_score 8).average
        = ((freshRank "p" "i" 0 5).average * ((freshRank "p" "i" 0 5).total : ℚ) + 8)
            / (((freshRank "p" "i" 0 5).total : ℚ) + 1) ∧
      ((freshRank "p" "i" 0 5).update_score 8).total
        = (freshRank "p" "i" 0 5).total + 1 :=
  C1_update_score_formula (freshRank "p" "i" 0 5) 8 (by decide)

/-- C2: the derived id depends only on `project_id` and `item_id` (so repeated
calls on the same inputs agree), equals their concatenation with no
separator, and `compute_id` sets the `id` field to exactly this value. -/
theorem C2_derived_id (r₁ r₂ : Rank)
    (hp : r₁.project_id = r₂.project_id) (hi : r₁.item_id = r₂.item_id) :
    r₁.get_computed_id = r₂.get_computed_id ∧
      r₁.get_computed_id = r₁.project_id ++ r₁.item_id ∧
      r₁.compute_id.id = r₁.project_id ++ r₁.item_id := by
  refine ⟨?_, rfl, rfl⟩
  simp [Rank.get_computed_id, hp, hi]

/-- Witness for C2 on `project_id = "p1"`, `item_id = "i1"` (two records
differing elsewhere), including the concrete value `"p1i1"`. -/
theorem C2_derived_id_witness :
    ((freshRank "p1" "i1" 0 5).get_computed_id
          = (freshRank "p1" "i1" 1 10).get_computed_id ∧
        (freshRank "p1" "i1" 0 5).get_computed_id = "p1" ++ "i1" ∧
        (freshRank "p1" "i1" 0 5).compute_id.id = "p1" ++ "i1") ∧
      (freshRank "p1" "i1" 0 5).get_computed_id = "p1i1" :=
  ⟨C2_derived_id (freshRank "p1" "i1" 0 5) (freshRank "p1" "i1" 1 10) rfl rfl, rfl⟩

/-- C6: when `total = 0`, `update_score score` yields `average = score` and
`total = 1` whatever the prior `average` was. -/
theorem C6_first_update_discards_average (r : Rank) (score : ℚ)
    (h : r.total = 0) :
    (r.update_score score).average = score ∧ (r.update_score score).total = 1 := by
  constructor
  · simp [Rank.update_score, h]
  · simp [Rank.update_score, h]

/-- Witness for C6: from `{average = 0, total = 0}`, `update_score 8` yields
`{average = 8, total = 1}` (the spec's concrete single-update example), and
the prior average is discarded even when nonzero (`average = 3` case). -/
theorem C6_first_update_discards_average_witness :
    (((freshRank "p" "i" 0 10).update_score 8).average = 8 ∧
        ((freshRank "p" "i" 0 10).update_score 8).total = 1) ∧
      (({ freshRank "p" "i" 0 10 with average := 3 } : Rank).update_score 8).average = 8 :=
  ⟨C6_first_update_discards_average (freshRank "p" "i" 0 10) 8 rfl,
    (C6_first_update_discards_average
      ({ freshRank "p" "i" 0 10 with average := 3 } : Rank) 8 rfl).1⟩

/-- C7: starting from a fresh state `{average = 0, total = 0}`, applying
`update_score` to the scores `2, 4, 6` in that order yields exactly
`{average = 4, total = 3}`. -/
theorem C7_sequence_average :
    (([2, 4, 6] : List ℚ).foldl Rank.update_score (freshRank "p" "i" 0 10)).average = 4 ∧
      (([2, 4, 6] : List ℚ).foldl Rank.update_score (freshRank "p" "i" 0 10)).total = 3 := by
  constructor <;> norm_num [List.foldl, Rank.update_score, freshRank]

/-- C9: `update_score` performs no bounds checking and never fails: for a
score outside `[min, max]` the formula is still applied (`total` increments,
`average` follows the incremental-mean formula), and the result does not
depend on the `min`/`max` fields at all. -/
theorem C9_no_bounds_checking (r : Rank) (score : ℚ)
    (h : score < r.min ∨ r.max < score) :
    (r.update_score score).total = r.total + 1 ∧
      (r.update_score score).average
        = (r.average * (r.total : ℚ) + score) / ((r.total : ℚ) + 1) ∧
      ∀ lo hi : ℚ,
        ({ r with min := lo, max := hi } : Rank).update_score score
          = { r.update_score score with min := lo, max := hi } := by
  refine ⟨rfl, ?_, fun lo hi => rfl⟩
  simp only [Rank.update_score]
  push_cast
  ring_nf

/-- Witness for C9 at a score `100` outside the bounds `[0, 5]`. -/
theorem C9_no_bounds_checking_witness :
    (100 < (freshRank "p" "i" 0 5).min ∨ (freshRank "p" "i" 0 5).max < 100) ∧
      (((freshRank "p" "i" 0 5).update_score 100).total
            = (freshRank "p" "i" 0 5).total + 1 ∧
        ((freshRank "p" "i" 0 5).update_score 100).average
          = ((freshRank "p" "i" 0 5).average * ((freshRank "p" "i" 0 5).total : ℚ) + 100)
              / (((freshRank "p" "i" 0 5).total : ℚ) + 1) ∧
        ∀ lo hi : ℚ,
          ({ freshRank "p" "i" 0 5 with min := lo, max := hi } : Rank).update_score 100
            = { (freshRank "p" "i" 0 5).update_score 100 with min := lo, max := hi }) :=
  ⟨by decide, C9_no_bounds_checking (freshRank "p" "i" 0 5) 100 (by decide)⟩

/-- A record whose `id` field (`"x"`) differs from its derived id (`"pi"`),
exercising the save-key behavior. -/
def staleIdRank : Rank :=
  { id := "x", project_id := "p", item_id := "i", total := 0, average := 0,
    min := 0, max := 5, created_at := 0, deleted_at := none }

/-- C3: for the in-memory repository, `rank id score` on an absent id returns
the not-found error and leaves the entire map unchanged (creating no record);
on a present id it returns `Ok` and applies `update_score` to that record. -/
theorem C3_inmemory_rank_not_found (m : RankMap) (id : String) (score : ℚ) :
    (mapGet m id = none →
        RankRepoInMemory.rank m id score
          = (Except.error (RepoError.dataNotFound "5" "5"), m)) ∧
      ∀ r, mapGet m id = some r →
        RankRepoInMemory.rank m id score
          = (Except.ok (), mapInsert m id (r.update_score score)) := by
  constructor
  · intro h
    simp [RankRepoInMemory.rank, h]
  · intro r h
    simp [RankRepoInMemory.rank, h]

/-- Witness for C3: on the empty map, `rank "x" 3` errors and returns the
empty map; on a singleton map holding the looked-up record, `rank` succeeds
and stores the updated record. -/
theorem C3_inmemory_rank_not_found_witness :
    RankRepoInMemory.rank [] "x" 3
        = (Except.error (RepoError.dataNotFound "5" "5"), []) ∧
      RankRepoInMemory.rank [("pi", freshRank "p" "i" 0 5)] "pi" 2
        = (Except.ok (),
            mapInsert [("pi", freshRank "p" "i" 0 5)] "pi"
              ((freshRank "p" "i" 0 5).update_score 2)) :=
  ⟨(C3_inmemory_rank_not_found [] "x" 3).1 rfl,
    (C3_inmemory_rank_not_found [("pi", freshRank "p" "i" 0 5)] "pi" 2).2
      (freshRank "p" "i" 0 5) rfl⟩

/-- C4: the Firestore backend's `rank` on an absent document panics
(`.expect("Missing document")`) instead of returning the not-found signal the
in-memory backend returns in the same situation. -/
theorem C4_firestore_rank_panics_on_absent (store : RankMap) (id : String)
    (score : ℚ) (h : mapGet store id = none) :
    RankRepoFirestore.rank store id score
        = FirestoreRankOutcome.panicked "Missing document" ∧
      RankRepoInMemory.rank store id score
        = (Except.error (RepoError.dataNotFound "5" "5"), store) := by
  constructor
  · simp [RankRepoFirestore.rank, h]
  · simp [RankRepoInMemory.rank, h]

/-- Witness for C4 on the empty store and id `"x"`. -/
theorem C4_firestore_rank_panics_on_absent_witness :
    RankRepoFirestore.rank [] "x" 1
        = FirestoreRankOutcome.panicked "Missing document" ∧
      RankRepoInMemory.rank [] "x" 1
        = (Except.error (RepoError.dataNotFound "5" "5"), []) :=
  C4_firestore_rank_panics_on_absent [] "x" 1 rfl

/-- C5: a successful Firestore `rank id score` commits a store in which the
document at `id` carries the updated `average` and `total` and keeps every
other field (`id`, `project_id`, `item_id`, `min`, `max`, `created_at`,
`deleted_at`) of the pre-existing document; other documents are untouched. -/
theorem C5_firestore_rank_partial_update (store : RankMap) (id : String)
    (score : ℚ) (doc : Rank) (h : mapGet store id = some doc) :
    ∃ store2 doc2,
      RankRepoFirestore.rank store id score
          = FirestoreRankOutcome.committed store2 ∧
        mapGet store2 id = some doc2 ∧
        doc2.average = (doc.update_score score).average ∧
        doc2.total = doc.total + 1 ∧
        doc2.id = doc.id ∧
        doc2.project_id = doc.project_id ∧
        doc2.item_id = doc.item_id ∧
        doc2.min = doc.min ∧
        doc2.max = doc.max ∧
        doc2.created_at = doc.created_at ∧
        doc2.deleted_at = doc.deleted_at ∧
        ∀ k, k ≠ id → mapGet store2 k = mapGet store k := by
  refine ⟨mapInsert store id (applyAverageTotalFields doc (doc.update_score score)),
    applyAverageTotalFields doc (doc.update_score score), ?_,
    mapGet_mapInsert_self store id _, rfl, rfl, rfl, rfl, rfl, rfl, rfl, rfl, rfl, ?_⟩
  · simp [RankRepoFirestore.rank, h]
  · intro k hk
    exact mapGet_mapInsert_ne store id _ k hk

/-- Witness for C5 on a singleton store holding a fresh record at `"pi"`. -/
theorem C5_firestore_rank_partial_update_witness :
    ∃ store2 doc2,
      RankRepoFirestore.rank [("pi", freshRank "p" "i" 0 5)] "pi" 4
          = FirestoreRankOutcome.committed store2 ∧
        mapGet store2 "pi" = some doc2 ∧
        doc2.average = ((freshRank "p" "i" 0 5).update_score 4).average ∧
        doc2.total = (freshRank "p" "i" 0 5).total + 1 ∧
        doc2.id = (freshRank "p" "i" 0 5).id ∧
        doc2.project_id = (freshRank "p" "i" 0 5).project_id ∧
        doc2.item_id = (freshRank "p" "i" 0 5).item_id ∧
        doc2.min = (freshRank "p" "i" 0 5).min ∧
        doc2.max = (freshRank "p" "i" 0 5).max ∧
        doc2.created_at = (freshRank "p" "i" 0 5).created_at ∧
        doc2.deleted_at = (freshRank "p" "i" 0 5).deleted_at ∧
        ∀ k, k ≠ "pi" →
          mapGet store2 k = mapGet [("pi", freshRank "p" "i" 0 5)] k :=
  C5_firestore_rank_partial_update [("pi", freshRank "p" "i" 0 5)] "pi" 4
    (freshRank "p" "i" 0 5) rfl

/-- C8 counterexample: the in-memory `save` is NOT keyed by the entity's `id`
field: after saving a record whose `id` field is `"x"` (but whose derived id
is `"pi"`) into the empty map, looking up `"x"` does not find it. -/
theorem C8_save_counterexample :
    ¬ (mapGet (RankRepoInMemory.save [] staleIdRank).2 staleIdRank.id
        = some staleIdRank) := by
  decide

/-- C8 (amended): the in-memory `save` is an idempotent upsert keyed by the
DERIVED id `get_computed_id(entity)` (not the `id` field): saving the same
entity twice leaves the map identical to saving it once, and saving
overwrites any existing record with the same derived id. -/
theorem C8_save_idempotent_upsert (m : RankMap) (e : Rank) :
    (RankRepoInMemory.save (RankRepoInMemory.save m e).2 e).2
        = (RankRepoInMemory.save m e).2 ∧
      mapGet (RankRepoInMemory.save m e).2 e.get_computed_id = some e := by
  constructor
  · exact mapInsert_idem m e.get_computed_id e
  · exact mapGet_mapInsert_self m e.get_computed_id e

/-- C10: the in-memory `save` stores the record under the derived id and does
not rewrite the stored record's `id` field: for an entity whose `id` field
differs from its derived id and is absent from the map, `get` at the `id`
field still misses after `save`, while `get` at the derived id returns a
record whose `id` field holds the stale value. -/
theorem C10_save_keyed_by_derived_id (m : RankMap) (e : Rank)
    (hne : e.id ≠ e.get_computed_id) (habsent : mapGet m e.id = none) :
    mapGet (RankRepoInMemory.save m e).2 e.id = none ∧
      ∃ stored,
        mapGet (RankRepoInMemory.save m e).2 e.get_computed_id = some stored ∧
          stored.id = e.id ∧ stored.id ≠ e.get_computed_id := by
  refine ⟨?_, e, mapGet_mapInsert_self m e.get_computed_id e, rfl, hne⟩
  rw [RankRepoInMemory.save]
  rw [mapGet_mapInsert_ne m e.get_computed_id e e.id hne]
  exact habsent

/-- Witness for C10 at the record with `id = "x"` and derived id `"pi"`, on
the empty map. -/
theorem C10_save_keyed_by_derived_id_witness :
    mapGet (RankRepoInMemory.save [] staleIdRank).2 staleIdRank.id = none ∧
      ∃ stored,
        mapGet (RankRepoInMemory.save [] staleIdRank).2
            staleIdRank.get_computed_id = some stored ∧
          stored.id = staleIdRank.id ∧
          stored.id ≠ staleIdRank.get_computed_id :=
  C10_save_keyed_by_derived_id [] staleIdRank (by decide) rfl
